import Mathlib

/-!
Shallow embedding of the insurance-multi-agent frontend client
(src/frontend/src/pages/Upload.js, which holds the Upload component, the
Chat component and the App shell concatenated).  The development covers
the chat stream reducer inside Chat.handleSubmit and the upload handler
Upload.handleUpload, the two pieces the specification makes claims about.

Modelling conventions, chosen to mirror the JavaScript semantics:
* JS strings are Lean Strings; a JS value that may be undefined is an
  Option String, with none standing for undefined or an absent field.
* The JS Set stored in agentsUsed is a List (Option String) kept in
  insertion order with set-insert semantics; none as an element is the
  value undefined sitting inside the set (Set.add(undefined) stores it).
* activeAgent holds null or undefined or a string in JS; null and
  undefined are both falsy and never distinguished by the component, so
  both are modelled as none.
* The JSON payload of a data: line is a flat object with string keys and
  string values, the AgentEvent shape the backend emits; JSON.parse is
  modelled by a concrete reader of exactly that shape, failing (none)
  elsewhere, which matches a thrown parse error being caught.
* Chunks arrive as text; the TextDecoder step is the identity on the
  character sequence, so a chunk is a String and the byte stream is the
  concatenation of the chunks.
-/

namespace Frontend

/-- A parsed stream event: the JSON object carried by a data: line, as a
flat list of string key/value pairs in source order. -/
structure AgentEvent where
  fields : List (String × String)
deriving DecidableEq, Repr

/-- Property access data.k on the parsed object; a later duplicate key
shadows an earlier one as in JSON.parse, and none is undefined. -/
def AgentEvent.get (e : AgentEvent) (k : String) : Option String :=
  (e.fields.reverse.find? (fun p => p.1 == k)).map (fun p => p.2)

/-- data.type -/
def AgentEvent.type (e : AgentEvent) : Option String := e.get "type"

/-- data.agent -/
def AgentEvent.agent (e : AgentEvent) : Option String := e.get "agent"

/-- data.content -/
def AgentEvent.content (e : AgentEvent) : Option String := e.get "content"

/-- Message role. -/
inductive Role where
  | user
  | assistant
deriving DecidableEq, Repr

/-- One conversation message.  The user messages built by handleSubmit
carry no events or agentsUsed properties in JS; they are modelled with
empty ones, which the reducer never touches. -/
structure Msg where
  role : Role
  content : String
  events : List AgentEvent
  agentsUsed : List (Option String)
deriving DecidableEq, Repr

/-- The chat component state the stream loop reads and writes: the
messages array and the stream session (activeAgent, agentHistory). -/
structure ChatState where
  messages : List Msg
  activeAgent : Option String
  agentHistory : List (Option String)
deriving DecidableEq, Repr

/-- Set-insert on an insertion-ordered list: JS Set.add, and also the
agentHistory update (append only when not already present). -/
def setAdd {α : Type} [DecidableEq α] (l : List α) (a : α) : List α :=
  if a ∈ l then l else l ++ [a]

/-- JS truthiness of data.agent as used by the guard if (data.agent):
undefined and the empty string are falsy. -/
def truthyAgent : Option String → Bool
  | none => false
  | some s => s != ""

/-- JS string coercion performed by content += data.content when the
content property is absent: undefined prints as "undefined". -/
def jsStr : Option String → String
  | some s => s
  | none => "undefined"

/-- data.type === agent_start or data.type === agent_active. -/
def isStartOrActive (e : AgentEvent) : Bool :=
  e.type == some "agent_start" || e.type == some "agent_active"

/-- The agent_text branch on the in-progress message:
lastMsg.content += data.content and lastMsg.agentsUsed.add(data.agent),
with no guard on the agent field. -/
def msgTextStep (e : AgentEvent) (m : Msg) : Msg :=
  { m with
    content := m.content ++ jsStr e.content,
    agentsUsed := setAdd m.agentsUsed e.agent }

/-- The unconditional branch on the in-progress message: push the raw
event, and add the agent to agentsUsed only if (data.agent) is truthy. -/
def msgEventStep (e : AgentEvent) (m : Msg) : Msg :=
  { m with
    events := m.events ++ [e],
    agentsUsed :=
      if truthyAgent e.agent then setAdd m.agentsUsed e.agent
      else m.agentsUsed }

/-- Combined effect of one event on the in-progress message, in the order
the two setMessages updaters run. -/
def msgStep (e : AgentEvent) (m : Msg) : Msg :=
  msgEventStep e (if e.type == some "agent_text" then msgTextStep e m else m)

/-- Rewrite the final element of the messages array, leaving every other
message untouched; on an empty array nothing happens. -/
def updateLast (f : Msg → Msg) : List Msg → List Msg
  | [] => []
  | [m] => [f m]
  | m :: ms => m :: updateLast f ms

/-- One parsed event folded into the chat state, mirroring the three
state updates of Chat.handleSubmit in order: agent_start or agent_active
set activeAgent and append to agentHistory when absent; agent_text
appends text and the agent to the last message; every event is pushed
onto the last message with a truthiness-guarded agentsUsed insert. -/
def processEvent (st : ChatState) (e : AgentEvent) : ChatState :=
  let st1 :=
    if isStartOrActive e then
      { st with
        activeAgent := e.agent,
        agentHistory := setAdd st.agentHistory e.agent }
    else st
  { st1 with messages := updateLast (msgStep e) st1.messages }

/-- Reads the characters of a JSON string body up to the closing quote;
the backend event payloads use no escape sequences. -/
def readStrAux : List Char → Option (List Char × List Char)
  | [] => none
  | c :: cs =>
    if c = '"' then some ([], cs)
    else (readStrAux cs).map (fun p => (c :: p.1, p.2))

/-- Reads a JSON string literal including both quotes. -/
def readString : List Char → Option (String × List Char)
  | '"' :: cs => (readStrAux cs).map (fun p => (String.mk p.1, p.2))
  | _ => none

/-- Reads the key/value pairs of a flat JSON object after the opening
brace, up to and including the closing brace. -/
def readPairs : Nat → List Char → Option (List (String × String))
  | 0, _ => none
  | fuel + 1, cs =>
    match readString cs with
    | none => none
    | some (k, cs1) =>
      match cs1 with
      | ':' :: cs2 =>
        match readString cs2 with
        | none => none
        | some (v, cs3) =>
          match cs3 with
          | ',' :: cs4 => (readPairs fuel cs4).map (fun ps => (k, v) :: ps)
          | ['\x7d'] => some [(k, v)]
          | _ => none
      | _ => none

/-- Model of JSON.parse on the payload of a data: line: accepts a flat
object with string keys and string values (the AgentEvent shape of the
backend) and fails on anything else, matching the thrown parse error
that the catch around JSON.parse swallows. -/
def parseEvent (s : String) : Option AgentEvent :=
  match s.toList with
  | '\x7b' :: cs =>
    match cs with
    | ['\x7d'] => some ⟨[]⟩
    | _ => (readPairs (cs.length + 1) cs).map (fun ps => ⟨ps⟩)
  | _ => none

/-- The prefix tested by line.startsWith. -/
def dataMark : List Char := "data: ".toList

/-- One line of the stream: a line starting with data: has its remainder
(line.slice(6)) JSON-parsed and the event applied; a parse failure is
swallowed, and any other line is ignored. -/
def processLine (st : ChatState) (line : String) : ChatState :=
  if dataMark.isPrefixOf line.toList then
    match parseEvent (String.mk (line.toList.drop 6)) with
    | some e => processEvent st e
    | none => st
  else st

/-- chunk.split on the newline character, keeping empty pieces, exactly
as the JS String.split with a string separator behaves. -/
def splitLinesAux : List Char → List (List Char)
  | [] => [[]]
  | c :: cs =>
    let r := splitLinesAux cs
    if c = '\n' then [] :: r
    else
      match r with
      | [] => [[c]]
      | l :: ls => (c :: l) :: ls

/-- String form of the line splitter. -/
def splitLines (s : String) : List String :=
  (splitLinesAux s.toList).map String.mk

/-- One reader chunk: decode, split on newlines, process each line.  No
partial trailing line is carried over to the next chunk. -/
def processChunk (st : ChatState) (chunk : String) : ChatState :=
  (splitLines chunk).foldl processLine st

/-- The whole read loop over a finished stream delivered as a list of
chunks. -/
def runChunks (st : ChatState) (chunks : List String) : ChatState :=
  chunks.foldl processChunk st

/-- The loop at event granularity: the sequence of events that were
successfully parsed from data: lines, applied in receipt order. -/
def runEvents (st : ChatState) (evs : List AgentEvent) : ChatState :=
  evs.foldl processEvent st

/-- The state right after handleSubmit has appended the user message and
the empty assistant message and seeded the session: activeAgent is
RootAgent, agentHistory is the singleton RootAgent, and the assistant
message starts with content empty, no events, and agentsUsed holding
RootAgent. -/
def submitState (prior : List Msg) (q : String) : ChatState :=
  { messages := prior ++
      [ { role := Role.user, content := q, events := [], agentsUsed := [] },
        { role := Role.assistant, content := "", events := [],
          agentsUsed := [some "RootAgent"] } ],
    activeAgent := some "RootAgent",
    agentHistory := [some "RootAgent"] }

/-- Natural end of the stream (reader reports done): the only update is
setActiveAgent(null). -/
def endStep (st : ChatState) : ChatState :=
  { st with activeAgent := none }

/-- The catch block of handleSubmit: overwrite the last message content
with an Error: string; no other field changes, and in particular the
session is not touched. -/
def errorStep (st : ChatState) (emsg : String) : ChatState :=
  { st with
    messages :=
      updateLast (fun m => { m with content := "Error: " ++ emsg })
        st.messages }

/-- The in-progress message: the last element of the messages array. -/
def lastMsg? (st : ChatState) : Option Msg := st.messages.getLast?

/-- textContent of the in-progress message. -/
def lastContent (st : ChatState) : String :=
  ((lastMsg? st).map Msg.content).getD ""

/-- agentsUsed of the in-progress message. -/
def lastAgentsUsed (st : ChatState) : List (Option String) :=
  ((lastMsg? st).map Msg.agentsUsed).getD []

/-- events of the in-progress message. -/
def lastEvents (st : ChatState) : List AgentEvent :=
  ((lastMsg? st).map Msg.events).getD []

/-- Agents named by agent_start or agent_active events, in order. -/
def startAgents (evs : List AgentEvent) : List (Option String) :=
  (evs.filter isStartOrActive).map AgentEvent.agent

/-- The first occurrence of each element of a list, in first-seen
order. -/
def dedupFirst (l : List (Option String)) : List (Option String) :=
  l.foldl setAdd []

/-- The ways a single event inserts identifier a into agentsUsed: the
agent_text branch inserts data.agent unconditionally, and the generic
branch inserts it when it is truthy. -/
def addsAgent (e : AgentEvent) (a : Option String) : Prop :=
  (e.type = some "agent_text" ∨ truthyAgent e.agent = true) ∧ a = e.agent

/-- The response body of the embed endpoint, or the client-built error
record. -/
structure UploadResult where
  status : String
  message : String
  files_processed : Option (List String)
deriving DecidableEq, Repr

/-- Upload component state: the selected files (by name), the pending
flag, and the result banner. -/
structure UploadState where
  files : List String
  uploading : Bool
  result : Option UploadResult
deriving DecidableEq, Repr

/-- Upload.handleUpload: returns the state after the handler finishes,
paired with whether the network request (the axios post) was issued.
The transport outcome is an input: ok carries response.data and clears
the file list, error builds the error banner from error.message and
keeps the files; the finally block clears the pending flag. -/
def handleUpload (st : UploadState) (outcome : Except String UploadResult) :
    UploadState × Bool :=
  if st.files.length = 0 then (st, false)
  else
    match outcome with
    | Except.ok resp =>
        ({ files := [], uploading := false, result := some resp }, true)
    | Except.error e =>
        ({ st with
           uploading := false,
           result := some { status := "error", message := e,
                            files_processed := none } }, true)

/-- The disabled condition of the upload trigger. -/
def uploadDisabled (st : UploadState) : Bool :=
  st.uploading || st.files.length == 0

/-! Basic lemmas about the set-insert and last-message helpers. -/

theorem mem_setAdd {α : Type} [DecidableEq α] (l : List α) (a b : α) :
    b ∈ setAdd l a ↔ b ∈ l ∨ b = a := by
  unfold setAdd
  by_cases h : a ∈ l
  · simp only [if_pos h]
    exact ⟨Or.inl, fun hb => hb.elim id (fun e => e ▸ h)⟩
  · simp [if_neg h, List.mem_append]

theorem nodup_setAdd {α : Type} [DecidableEq α] {l : List α} (h : l.Nodup)
    (a : α) : (setAdd l a).Nodup := by
  unfold setAdd
  by_cases ha : a ∈ l
  · simpa [if_pos ha] using h
  · simp [if_neg ha, List.nodup_append, h, ha]

theorem foldl_setAdd_nodup (xs : List (Option String)) :
    ∀ l : List (Option String), l.Nodup → (xs.foldl setAdd l).Nodup := by
  induction xs with
  | nil => exact fun l h => h
  | cons x xs ih => exact fun l h => ih (setAdd l x) (nodup_setAdd h x)

theorem updateLast_append (f : Msg → Msg) (l : List Msg) (m : Msg) :
    updateLast f (l ++ [m]) = l ++ [f m] := by
  induction l with
  | nil => rfl
  | cons a l ih =>
    cases l with
    | nil => rfl
    | cons b l2 =>
      show a :: updateLast f ((b :: l2) ++ [m]) = a :: ((b :: l2) ++ [f m])
      rw [ih]

/-! How one event and a sequence of events act on the state. -/

theorem processEvent_messages (st : ChatState) (e : AgentEvent) (l : List Msg)
    (m : Msg) (h : st.messages = l ++ [m]) :
    (processEvent st e).messages = l ++ [msgStep e m] := by
  unfold processEvent
  by_cases hs : isStartOrActive e <;> simp [hs, h, updateLast_append]

theorem processEvent_agentHistory (st : ChatState) (e : AgentEvent) :
    (processEvent st e).agentHistory =
      if isStartOrActive e then setAdd st.agentHistory e.agent
      else st.agentHistory := by
  unfold processEvent
  by_cases hs : isStartOrActive e <;> simp [hs]

theorem processEvent_session (st : ChatState) (e : AgentEvent)
    (h : isStartOrActive e = true) :
    (processEvent st e).activeAgent = e.agent ∧
    (processEvent st e).agentHistory = setAdd st.agentHistory e.agent := by
  unfold processEvent
  simp [h]

theorem runEvents_messages (evs : List AgentEvent) :
    ∀ (st : ChatState) (l : List Msg) (m : Msg), st.messages = l ++ [m] →
      (runEvents st evs).messages =
        l ++ [evs.foldl (fun mm e => msgStep e mm) m] := by
  induction evs with
  | nil => intro st l m h; simpa [runEvents] using h
  | cons e evs ih =>
    intro st l m h
    have h1 := processEvent_messages st e l m h
    simpa [runEvents, List.foldl_cons] using
      ih (processEvent st e) l (msgStep e m) h1

theorem runEvents_agentHistory (evs : List AgentEvent) :
    ∀ st : ChatState,
      (runEvents st evs).agentHistory =
        (startAgents evs).foldl setAdd st.agentHistory := by
  induction evs with
  | nil => intro st; rfl
  | cons e evs ih =>
    intro st
    have h2 := processEvent_agentHistory st e
    by_cases hs : isStartOrActive e
    · simpa [runEvents, startAgents, List.filter_cons, hs, h2] using
        ih (processEvent st e)
    · simpa [runEvents, startAgents, List.filter_cons, hs, h2] using
        ih (processEvent st e)

theorem msgStep_agentsUsed_mem (e : AgentEvent) (m : Msg) (a : Option String) :
    a ∈ (msgStep e m).agentsUsed ↔ a ∈ m.agentsUsed ∨ addsAgent e a := by
  unfold msgStep msgEventStep msgTextStep addsAgent
  by_cases ht : e.type = some "agent_text" <;>
    by_cases hg : truthyAgent e.agent = true <;>
      simp [ht, hg, mem_setAdd, beq_iff_eq]

theorem msgStep_agentsUsed_nodup (e : AgentEvent) (m : Msg)
    (h : m.agentsUsed.Nodup) : (msgStep e m).agentsUsed.Nodup := by
  unfold msgStep msgEventStep msgTextStep
  by_cases ht : e.type == some "agent_text" <;>
    by_cases hg : truthyAgent e.agent <;>
      simp [ht, hg] <;>
        first
          | exact nodup_setAdd (nodup_setAdd h _) _
          | exact nodup_setAdd h _
          | exact h

theorem foldMsg_agentsUsed_mem (evs : List AgentEvent) :
    ∀ (m : Msg) (a : Option String),
      a ∈ (evs.foldl (fun mm e => msgStep e mm) m).agentsUsed ↔
        a ∈ m.agentsUsed ∨ ∃ e ∈ evs, addsAgent e a := by
  induction evs with
  | nil => simp
  | cons e evs ih =>
    intro m a
    rw [List.foldl_cons, ih, msgStep_agentsUsed_mem]
    simp only [List.exists_mem_cons_iff]
    tauto

theorem foldMsg_agentsUsed_nodup (evs : List AgentEvent) :
    ∀ m : Msg, m.agentsUsed.Nodup →
      (evs.foldl (fun mm e => msgStep e mm) m).agentsUsed.Nodup := by
  induction evs with
  | nil => exact fun m h => h
  | cons e evs ih =>
    exact fun m h => ih (msgStep e m) (msgStep_agentsUsed_nodup e m h)

/-! The claims. -/

/-- Claim C1 concerns chunk-boundary independence of the accumulated
textContent.  The loop splits each decoded chunk on newlines without
buffering a partial trailing line, so a data: line cut by a chunk
boundary is lost: the same character stream, holding one agent_text
event with fragment Yes, yields textContent Yes when delivered as one
chunk but the empty string when cut in the middle of the line, the two
halves being a failing parse and a non-data line. -/
theorem claim1_chunk_boundary_dependence :
    ("data: \x7b\"ty" ++
        "pe\":\"agent_text\",\"agent\":\"RAGAgent\",\"content\":\"Yes\"\x7d\n" =
      "data: \x7b\"type\":\"agent_text\",\"agent\":\"RAGAgent\",\"content\":\"Yes\"\x7d\n") ∧
    lastContent (runChunks (submitState [] "q")
      ["data: \x7b\"type\":\"agent_text\",\"agent\":\"RAGAgent\",\"content\":\"Yes\"\x7d\n"]) =
      "Yes" ∧
    lastContent (runChunks (submitState [] "q")
      ["data: \x7b\"ty",
       "pe\":\"agent_text\",\"agent\":\"RAGAgent\",\"content\":\"Yes\"\x7d\n"]) = "" := by
  refine ⟨by decide, by decide, by decide⟩

/-- Claim C2 fails as stated: agentsUsed is not the union of the agent
fields of the received events, because handleSubmit seeds it with
RootAgent before any event arrives.  With no events received it already
holds RootAgent while the union over the events is empty. -/
theorem claim2_counterexample :
    ¬ (∀ a : Option String,
        a ∈ lastAgentsUsed (runEvents (submitState [] "hi") []) ↔
          ∃ e ∈ ([] : List AgentEvent), e.agent = a) := by
  intro h
  have h1 : some "RootAgent" ∈ lastAgentsUsed (runEvents (submitState [] "hi") []) := by
    decide
  obtain ⟨e, he, -⟩ := (h (some "RootAgent")).mp h1
  exact absurd he (List.not_mem_nil e)

/-- Claim C2 (amended): after a submission processes a sequence of
events, the assistant message agentsUsed has no duplicates and holds
exactly RootAgent (seeded at submission) together with every identifier
some event inserts: the agent field of each agent_text event (even when
absent) and the agent field of any event when it is a truthy string. -/
theorem claim2_agentsUsed_characterization (prior : List Msg) (q : String)
    (evs : List AgentEvent) :
    (lastAgentsUsed (runEvents (submitState prior q) evs)).Nodup ∧
    (∀ a : Option String,
      a ∈ lastAgentsUsed (runEvents (submitState prior q) evs) ↔
        a = some "RootAgent" ∨ ∃ e ∈ evs, addsAgent e a) := by
  have hshape : (submitState prior q).messages =
      (prior ++ [{ role := Role.user, content := q, events := [],
                   agentsUsed := [] }]) ++
        [{ role := Role.assistant, content := "", events := [],
           agentsUsed := [some "RootAgent"] }] := by
    simp [submitState]
  have hmsgs := runEvents_messages evs (submitState prior q) _ _ hshape
  have hlast : lastAgentsUsed (runEvents (submitState prior q) evs) =
      (evs.foldl (fun mm e => msgStep e mm)
        { role := Role.assistant, content := "", events := [],
          agentsUsed := [some "RootAgent"] }).agentsUsed := by
    unfold lastAgentsUsed lastMsg?
    rw [hmsgs, List.getLast?_concat]
    rfl
  rw [hlast]
  constructor
  · exact foldMsg_agentsUsed_nodup evs _ (by decide)
  · intro a
    rw [foldMsg_agentsUsed_mem]
    simp [List.mem_singleton]

/-- Claim C3: an agent_start or agent_active event sets activeAgent to
the event agent field and appends it to agentHistory exactly when it is
not already present; and from the submission state, after any sequence
of events, agentHistory is duplicate-free and equals the first
occurrences, in first-seen order, of RootAgent followed by the agents of
the agent_start and agent_active events. -/
theorem claim3_agentHistory_invariant (st : ChatState) (e : AgentEvent)
    (prior : List Msg) (q : String) (evs : List AgentEvent)
    (h : isStartOrActive e = true) :
    (processEvent st e).activeAgent = e.agent ∧
    (processEvent st e).agentHistory = setAdd st.agentHistory e.agent ∧
    (runEvents (submitState prior q) evs).agentHistory.Nodup ∧
    (runEvents (submitState prior q) evs).agentHistory =
      dedupFirst (some "RootAgent" :: startAgents evs) := by
  refine ⟨(processEvent_session st e h).1, (processEvent_session st e h).2,
    ?_, ?_⟩
  · rw [runEvents_agentHistory]
    have hh : (submitState prior q).agentHistory = [some "RootAgent"] := rfl
    rw [hh]
    exact foldl_setAdd_nodup _ _ (by decide)
  · rw [runEvents_agentHistory]
    simp [dedupFirst, submitState, setAdd]

/-- Witness for claim C3 at a concrete agent_start event. -/
theorem claim3_witness :
    (processEvent (submitState [] "w")
        ⟨[("type", "agent_start"), ("agent", "RAGAgent")]⟩).activeAgent =
      some "RAGAgent" := by
  have h := claim3_agentHistory_invariant (submitState [] "w")
    ⟨[("type", "agent_start"), ("agent", "RAGAgent")]⟩ [] "w" [] (by decide)
  rw [h.1]
  decide

/-- Claim C4: a data: line whose payload fails to parse leaves the state
unchanged, and the loop goes on: processing the remaining lines yields
exactly the result obtained had the malformed line been absent. -/
theorem claim4_malformed_line_skipped (st : ChatState) (line : String)
    (rest : List String)
    (hd : dataMark.isPrefixOf line.toList = true)
    (hp : parseEvent (String.mk (line.toList.drop 6)) = none) :
    processLine st line = st ∧
    (line :: rest).foldl processLine st = rest.foldl processLine st := by
  have h1 : processLine st line = st := by
    unfold processLine
    rw [hd]
    simp only [String.toList] at hp
    simp [hp]
  exact ⟨h1, by simp [List.foldl_cons, h1]⟩

/-- Witness for claim C4 at a concrete malformed data: line. -/
theorem claim4_witness :
    processLine (submitState [] "w") "data: notjson" = submitState [] "w" :=
  (claim4_malformed_line_skipped (submitState [] "w") "data: notjson" []
    (by decide) (by decide)).1

/-- Claim C5: the transport-error handler overwrites the textContent of
the in-progress message with an Error: description while keeping its
role, events and agentsUsed, every earlier message, and the stream
session untouched. -/
theorem claim5_error_overwrites_content_only (st : ChatState)
    (emsg : String) (l : List Msg) (m : Msg) (h : st.messages = l ++ [m]) :
    (errorStep st emsg).messages =
      l ++ [{ m with content := "Error: " ++ emsg }] ∧
    (errorStep st emsg).activeAgent = st.activeAgent ∧
    (errorStep st emsg).agentHistory = st.agentHistory := by
  unfold errorStep
  exact ⟨by simp [h, updateLast_append], rfl, rfl⟩

/-- Witness for claim C5 on the freshly submitted conversation. -/
theorem claim5_witness :
    (errorStep (submitState [] "w") "boom").messages =
      [{ role := Role.user, content := "w", events := [], agentsUsed := [] },
       { role := Role.assistant, content := "Error: boom", events := [],
         agentsUsed := [some "RootAgent"] }] := by
  have h := claim5_error_overwrites_content_only (submitState [] "w") "boom"
    [{ role := Role.user, content := "w", events := [], agentsUsed := [] }]
    { role := Role.assistant, content := "", events := [],
      agentsUsed := [some "RootAgent"] } (by decide)
  exact h.1.trans (by decide)

/-- Claim C6 fails as stated: the catch path of handleSubmit only
rewrites the pending message, so right after a transport error on a
fresh submission activeAgent still names RootAgent and agentHistory is
not empty - the session is not reset on error. -/
theorem claim6_counterexample :
    (errorStep (submitState [] "q") "network failed").activeAgent =
        some "RootAgent" ∧
    (errorStep (submitState [] "q") "network failed").agentHistory =
        [some "RootAgent"] := by
  decide

/-- Claim C6 (amended): a natural stream end clears activeAgent but
keeps agentHistory; a transport error changes neither activeAgent nor
agentHistory; a new submission reinitializes both to RootAgent (not to
empty). -/
theorem claim6_session_lifecycle (st : ChatState) (emsg : String)
    (prior : List Msg) (q : String) :
    (endStep st).activeAgent = none ∧
    (endStep st).agentHistory = st.agentHistory ∧
    (errorStep st emsg).activeAgent = st.activeAgent ∧
    (errorStep st emsg).agentHistory = st.agentHistory ∧
    (submitState prior q).activeAgent = some "RootAgent" ∧
    (submitState prior q).agentHistory = [some "RootAgent"] :=
  ⟨rfl, rfl, rfl, rfl, rfl, rfl⟩

/-- Claim C7: the natural end of the stream only clears activeAgent;
the messages array (hence the in-progress message, its events and its
textContent) and agentHistory stay exactly as accumulated. -/
theorem claim7_natural_end_frame (st : ChatState) :
    (endStep st).activeAgent = none ∧
    (endStep st).agentHistory = st.agentHistory ∧
    (endStep st).messages = st.messages :=
  ⟨rfl, rfl, rfl⟩

/-- Claim C8: with no selected files, handleUpload returns before doing
anything: no request is issued and the state (pending flag, banner,
files) is unchanged; the trigger is disabled in that state as well. -/
theorem claim8_empty_upload_noop (st : UploadState)
    (outcome : Except String UploadResult) (h : st.files = []) :
    handleUpload st outcome = (st, false) ∧ uploadDisabled st = true := by
  unfold handleUpload uploadDisabled
  simp [h]

/-- Witness for claim C8 at the empty upload state. -/
theorem claim8_witness :
    handleUpload { files := [], uploading := false, result := none }
        (Except.error "x") =
      ({ files := [], uploading := false, result := none }, false) :=
  (claim8_empty_upload_noop _ _ rfl).1

/-- Claim C9: a line that does not start with the data: marker - blank
lines included - leaves the whole state unchanged. -/
theorem claim9_non_data_line_ignored (st : ChatState) (line : String)
    (h : dataMark.isPrefixOf line.toList = false) :
    processLine st line = st := by
  unfold processLine
  rw [h]
  simp

/-- Witness for claim C9 at the blank line. -/
theorem claim9_witness :
    processLine (submitState [] "w") "" = submitState [] "w" :=
  claim9_non_data_line_ignored _ "" (by decide)

/-- Claim C10: the agent_text branch adds data.agent to agentsUsed with
no presence guard (the truthiness guard sits only on the generic
per-event insert), so the agent field of an agent_text event - the
undefined value included - always ends up in agentsUsed. -/
theorem claim10_agent_text_inserts_agent (st : ChatState) (e : AgentEvent)
    (l : List Msg) (m : Msg) (hm : st.messages = l ++ [m])
    (ht : e.type = some "agent_text") :
    e.agent ∈ lastAgentsUsed (processEvent st e) := by
  have h1 := processEvent_messages st e l m hm
  unfold lastAgentsUsed lastMsg?
  rw [h1, List.getLast?_concat]
  show e.agent ∈ (msgStep e m).agentsUsed
  rw [msgStep_agentsUsed_mem]
  exact Or.inr ⟨Or.inl ht, rfl⟩

/-- Witness for claim C10 at an agent_text event with no agent field:
the undefined identifier (none) is inserted. -/
theorem claim10_witness :
    none ∈ lastAgentsUsed (processEvent (submitState [] "w")
      ⟨[("type", "agent_text"), ("content", "hi")]⟩) := by
  have ha : AgentEvent.agent ⟨[("type", "agent_text"), ("content", "hi")]⟩ =
      (none : Option String) := by decide
  have h := claim10_agent_text_inserts_agent (submitState [] "w")
    ⟨[("type", "agent_text"), ("content", "hi")]⟩
    [{ role := Role.user, content := "w", events := [], agentsUsed := [] }]
    { role := Role.assistant, content := "", events := [],
      agentsUsed := [some "RootAgent"] } (by decide) (by decide)
  exact ha ▸ h

end Frontend
